import Mathlib

/-!
Verification of the PGN-to-coordinate-notation converter (`pgn-crunker`).

The repository contains two variants of the same `PgnProcessor`:
`src/main.rs` (failures signalled by returning `None`) and
`src/pgn_preprocessor.rs` (failures signalled by `panic!` / `todo!`, plus a
PGN-text cleaning pass in `process_pgn`).  Both are embedded below, in the
namespaces `MainV` and `PgnV` respectively.  Strings are embedded as
`List Char`; Rust panics of the `PgnV` variant are embedded as the `.error`
branch of `Except`.

The `chess` crate (the "position oracle" of the specification: board state,
legality queries, move application) is an external dependency that is not part
of the repository sources, so it is modelled from the specification; every
such definition carries a doc comment starting with `Modelled from the spec:`.
-/

/-- Modelled from the spec: the side-to-move colour (`chess::legal_moves::misc::Color`,
external crate), a binary value toggled after every fully resolved move. -/
inductive Color where
  | white
  | black
deriving DecidableEq

/-- Modelled from the spec: the toggle (`!color`, the `Not` impl of the external
crate) used after every fully resolved move. -/
def Color.not : Color → Color
  | .white => .black
  | .black => .white

/-- Modelled from the spec: the piece-type enumeration
(`chess::legal_moves::misc::Type`, external crate). -/
inductive PieceType where
  | pawn
  | knight
  | bishop
  | rook
  | queen
  | king
deriving DecidableEq

/-- Modelled from the spec: the oracle's board state (`chess::board::Board`,
external crate).  A square is an integer `rank*8 + file` (0–63); the board
maps each square to the occupying colour and piece type, if any. -/
abbrev Board := Nat → Option (Color × PieceType)

/-- Modelled from the spec: the white/black back-rank piece layout used by the
starting position, by file index. -/
def backRank (f : Nat) : Option PieceType :=
  match f with
  | 0 => some .rook
  | 1 => some .knight
  | 2 => some .bishop
  | 3 => some .queen
  | 4 => some .king
  | 5 => some .bishop
  | 6 => some .knight
  | 7 => some .rook
  | _ => none

/-- Modelled from the spec: `Board::init` (external crate), the standard
chess starting position. -/
def Board.init : Board := fun s =>
  if s < 8 then (backRank s).map (fun t => (Color.white, t))
  else if s < 16 then some (Color.white, PieceType.pawn)
  else if 48 ≤ s ∧ s < 56 then some (Color.black, PieceType.pawn)
  else if 56 ≤ s ∧ s < 64 then (backRank (s % 8)).map (fun t => (Color.black, t))
  else none

/-- Modelled from the spec: the oracle query "which squares of colour C and
piece type T are occupied" (`board.get_bitboard(color, type).get_occupied_squares()`
of the external crate), enumerated in ascending square order. -/
def occupiedSquares (b : Board) (c : Color) (pt : PieceType) : List Nat :=
  (List.range 64).filter fun s => decide (b s = some (c, pt))

/-- Modelled from the spec: integer sign helper for slider directions. -/
def sgnZ (x : Int) : Int :=
  if x < 0 then -1 else if x = 0 then 0 else 1

/-- Modelled from the spec: the squares strictly between origin and destination
along the (straight or diagonal) line are empty; used by slider legality. -/
def pathClear (b : Board) (o d : Nat) : Bool :=
  let fo : Int := (o % 8 : Nat)
  let ro : Int := (o / 8 : Nat)
  let fd : Int := (d % 8 : Nat)
  let rd : Int := (d / 8 : Nat)
  let df := sgnZ (fd - fo)
  let dr := sgnZ (rd - ro)
  let n := max (fd - fo).natAbs (rd - ro).natAbs
  (List.range (n - 1)).all fun k =>
    (b ((ro + dr * ((k : Int) + 1)) * 8 + (fo + df * ((k : Int) + 1))).toNat).isNone

/-- Modelled from the spec: the oracle legality query
(`chess::legal_moves::is_move_possible::is_possible`, external crate): is the
move (origin, destination) legal for the piece standing on the origin square?
Movement geometry, occupancy and blocker rules of standard chess are modelled;
check/pin constraints, en passant and castling-by-coordinates are not (none of
the properties below depend on them). -/
def isPossible (b : Board) (m : Nat × Nat) : Bool :=
  let o := m.1
  let d := m.2
  match b o with
  | none => false
  | some (c, pt) =>
    let fo : Int := (o % 8 : Nat)
    let ro : Int := (o / 8 : Nat)
    let fd : Int := (d % 8 : Nat)
    let rd : Int := (d / 8 : Nat)
    let df := fd - fo
    let dr := rd - ro
    let ownAtDest : Bool := match b d with
      | some (c2, _) => decide (c2 = c)
      | none => false
    if o < 64 && d < 64 && decide (o ≠ d) && !ownAtDest then
      match pt with
      | .pawn =>
        let dir : Int := if c = .white then 1 else -1
        let startR : Int := if c = .white then 1 else 6
        let mid : Nat := ((ro + dir) * 8 + fo).toNat
        decide ((df = 0 ∧ dr = dir ∧ b d = none)
          ∨ (df = 0 ∧ ro = startR ∧ dr = 2 * dir ∧ b mid = none ∧ b d = none)
          ∨ (df.natAbs = 1 ∧ dr = dir ∧ (b d).isSome = true))
      | .knight =>
        decide ((df.natAbs = 1 ∧ dr.natAbs = 2) ∨ (df.natAbs = 2 ∧ dr.natAbs = 1))
      | .bishop => decide (df.natAbs = dr.natAbs) && pathClear b o d
      | .rook => decide (df = 0 ∨ dr = 0) && pathClear b o d
      | .queen => decide (df.natAbs = dr.natAbs ∨ df = 0 ∨ dr = 0) && pathClear b o d
      | .king => decide (df.natAbs ≤ 1 ∧ dr.natAbs ≤ 1)
    else false

/-- Modelled from the spec: the oracle's move application (`board.play_move`
of the external crate): the destination square receives the origin's piece
(capturing whatever stood there) and the origin square is emptied. -/
def playMove (b : Board) (m : Nat × Nat) : Board :=
  fun s => if s = m.2 then b m.1 else if s = m.1 then none else b s

/-- Modelled from the spec: `chess::utils::square_to_string` (external crate):
file letter then rank digit, e.g. square 12 ↦ `e2`. -/
def squareToString (s : Nat) : List Char :=
  [Char.ofNat (97 + s % 8), Char.ofNat (49 + s / 8)]

/-- Modelled from the spec: `chess::utils::string_to_square` (external crate):
`rank*8 + file` from a file letter and a rank digit (the first two characters);
out-of-alphabet characters truncate to 0 under `Nat` subtraction. -/
def stringToSquare (cs : List Char) : Nat :=
  match cs with
  | f :: r :: _ => (r.toNat - 49) * 8 + (f.toNat - 97)
  | _ => 0

/-- The token `O-O`. -/
def ooTok : List Char := ['O', '-', 'O']

/-- The token `O-O-O`. -/
def oooTok : List Char := ['O', '-', 'O', '-', 'O']

/-- Modelled from the spec: the oracle's castle application
(`board.castle(move_str, color)` of the external crate), the fixed pair of
king/rook moves for the given side and colour. -/
def Board.castle (b : Board) (tok : List Char) (c : Color) : Board :=
  let r0 : Nat := if c = .white then 0 else 56
  if tok = ooTok then
    playMove (playMove b (r0 + 4, r0 + 6)) (r0 + 7, r0 + 5)
  else
    playMove (playMove b (r0 + 4, r0 + 2)) (r0, r0 + 3)

/-- The interpreter state held by `PgnProcessor` in both source variants:
the oracle board plus the side-to-move colour. -/
structure PgnState where
  board : Board
  current_turn : Color

/-- The state of `PgnProcessor::new()`: initial position, White to move. -/
def initState : PgnState := ⟨Board.init, Color.white⟩

/-- Indexing `chars[i]` of the Rust sources at positions that are guarded by a
preceding bounds check; the default character is never observed under those
guards. -/
def charAt (cs : List Char) (i : Nat) : Char :=
  cs.getD i ' '

/-- Embeds Rust `str::trim_end_matches(c)` on a character pattern: remove every
trailing occurrence of `c`. -/
def trimEndMatches (c : Char) (xs : List Char) : List Char :=
  (xs.reverse.dropWhile (fun a => a == c)).reverse

/-- Characters treated as token separators by `split_whitespace` (the inputs
are ASCII PGN text). -/
def isWsChar (c : Char) : Bool :=
  c == ' ' || c == '\t' || c == '\n' || c == '\r'

/-- Worker for `splitWhitespace`; `cur` is the current token, reversed. -/
def splitWsAux (cur : List Char) : List Char → List (List Char)
  | [] => if cur.isEmpty then [] else [cur.reverse]
  | c :: cs =>
    if isWsChar c then
      if cur.isEmpty then splitWsAux [] cs else cur.reverse :: splitWsAux [] cs
    else splitWsAux (c :: cur) cs

/-- Embeds Rust `str::split_whitespace`: the non-empty maximal runs of
non-whitespace characters. -/
def splitWhitespace (xs : List Char) : List (List Char) :=
  splitWsAux [] xs

/-- Strips `pat` from the front of `s`, returning the remainder when `s`
starts with `pat`. -/
def dropPat : List Char → List Char → Option (List Char)
  | [], s => some s
  | _ :: _, [] => none
  | p :: ps, c :: cs => if p = c then dropPat ps cs else none

/-- Worker for `replaceAll` with fuel (one unit per input position; the
initial fuel `s.length` always suffices, see `replaceAll`). -/
def replaceAllAux (p : Char) (ps rep : List Char) : Nat → List Char → List Char
  | _, [] => []
  | 0, s => s
  | fuel + 1, c :: cs =>
    match dropPat (p :: ps) (c :: cs) with
    | some rem => rep ++ replaceAllAux p ps rep fuel rem
    | none => c :: replaceAllAux p ps rep fuel cs

/-- Embeds Rust `str::replace(pat, rep)`: replace every (non-overlapping,
leftmost-first) occurrence of the non-empty pattern `p :: ps` by `rep`. -/
def replaceAll (p : Char) (ps rep xs : List Char) : List Char :=
  replaceAllAux p ps rep xs.length xs

/-- Worker for `splitOnSub` with fuel; `cur` is the current segment, reversed. -/
def splitOnSubAux (p : Char) (ps : List Char) : Nat → List Char → List Char → List (List Char)
  | _, cur, [] => [cur.reverse]
  | 0, cur, s => [cur.reverse ++ s]
  | fuel + 1, cur, c :: cs =>
    match dropPat (p :: ps) (c :: cs) with
    | some rem => cur.reverse :: splitOnSubAux p ps fuel [] rem
    | none => splitOnSubAux p ps fuel (c :: cur) cs

/-- Embeds Rust `str::split(pat)` on the non-empty pattern `p :: ps`: the
segments between non-overlapping leftmost-first occurrences of the pattern. -/
def splitOnSub (p : Char) (ps xs : List Char) : List (List Char) :=
  splitOnSubAux p ps xs.length [] xs

/-- Whether the non-empty pattern `p :: ps` occurs as a contiguous substring. -/
def containsSub (p : Char) (ps : List Char) : List Char → Bool
  | [] => false
  | c :: cs => (dropPat (p :: ps) (c :: cs)).isSome || containsSub p ps cs

/-- Embeds `PgnProcessor::get_piece_type`, identical in both source variants:
the piece letter of a SAN piece move. -/
def getPieceType (c : Char) : Option PieceType :=
  match c with
  | 'N' => some PieceType.knight
  | 'B' => some PieceType.bishop
  | 'R' => some PieceType.rook
  | 'Q' => some PieceType.queen
  | 'K' => some PieceType.king
  | _ => none

/-- Embeds the candidate loop of `parse_pawn_move`, identical in both source
variants: the pawns of the side to move that pass the optional
file-disambiguation filter (`start_square % 8 == file - b'a'`) and the oracle
legality query for the target square. -/
def pawnSurvivors (st : PgnState) (file : Option Char) (target : Nat) : List Nat :=
  (occupiedSquares st.board st.current_turn PieceType.pawn).filter fun sq =>
    (match file with
      | some f => decide (sq % 8 = f.toNat - 97)
      | none => true)
    && isPossible st.board (sq, target)

/-- Embeds the candidate loop of `parse_piece_move`, identical in both source
variants: the pieces of the given type and the side to move that pass the
optional file filter (`% 8`), the optional rank filter (`/ 8`,
`rank - b'1'`) and the oracle legality query for the target square. -/
def pieceSurvivors (st : PgnState) (pt : PieceType) (fileD rankD : Option Char)
    (target : Nat) : List Nat :=
  (occupiedSquares st.board st.current_turn pt).filter fun sq =>
    (match fileD with
      | some f => decide (sq % 8 = f.toNat - 97)
      | none => true)
    && (match rankD with
      | some r => decide (sq / 8 = r.toNat - 49)
      | none => true)
    && isPossible st.board (sq, target)

namespace MainV

/-- Embeds the field-extraction prefix of `parse_piece_move` in `src/main.rs`
(lines 127–156): a lowercase character at position 1 is always taken as a file
hint (guarded only by `idx < chars.len()`), else a digit is taken as a rank
hint; then an `x` is skipped; the target is the next two characters if at
least two remain (`chars.len() - idx < 2` rejects). -/
def classifyPiece (chars : List Char) : Option Char × Option Char × Option (List Char) :=
  let hints : Option Char × Option Char × Nat :=
    if 1 < chars.length ∧ (charAt chars 1).isLower then (some (charAt chars 1), none, 2)
    else if 1 < chars.length ∧ (charAt chars 1).isDigit then (none, some (charAt chars 1), 2)
    else (none, none, 1)
  let fileD := hints.1
  let rankD := hints.2.1
  let i1 := hints.2.2
  let i2 := if i1 < chars.length ∧ charAt chars i1 = 'x' then i1 + 1 else i1
  if chars.length - i2 < 2 then (fileD, rankD, none)
  else (fileD, rankD, some ((chars.drop i2).take 2))

/-- Embeds `parse_piece_move` of `src/main.rs` (lines 126–192): classify, then
keep the surviving candidate origins; exactly one survivor yields the move,
any other count yields `None`. -/
def parsePieceMove (st : PgnState) (chars : List Char) (pt : PieceType) :
    Option (Nat × Nat) :=
  match classifyPiece chars with
  | (_, _, none) => none
  | (fileD, rankD, some tgt) =>
    let target := stringToSquare tgt
    match pieceSurvivors st pt fileD rankD target with
    | [s0] => some (s0, target)
    | _ => none

/-- Embeds `parse_pawn_move` of `src/main.rs` (lines 69–124): a leading
`<file>x` pair marks a capture and supplies the file hint; the target is the
next two characters; a `=` promotion suffix is skipped without effect (the
source comments "we don't need to handle this for our format"); exactly one
surviving pawn yields the move. -/
def parsePawnMove (st : PgnState) (chars : List Char) : Option (Nat × Nat) :=
  let file : Option Char :=
    match chars with
    | c0 :: c1 :: _ => if c1 = 'x' then some c0 else none
    | _ => none
  let idx := if file.isSome then 2 else 0
  if chars.length - idx < 2 then none
  else
    let target := stringToSquare ((chars.drop idx).take 2)
    match pawnSurvivors st file target with
    | [s0] => some (s0, target)
    | _ => none

/-- Embeds `parse_move` of `src/main.rs` (lines 55–67): empty tokens and
unrecognized leading characters yield `None`. -/
def parseMove (st : PgnState) (chars : List Char) : Option (Nat × Nat) :=
  match chars with
  | [] => none
  | c :: _ =>
    if c.isLower then parsePawnMove st chars
    else
      match getPieceType c with
      | some pt => parsePieceMove st chars pt
      | none => none

/-- Embeds `process_move` of `src/main.rs` (lines 28–53): castle tokens are
returned verbatim with the turn toggled (the board is not touched); otherwise
trailing `+` then trailing `#` are trimmed, the move is parsed and re-checked
against the oracle, the board is updated and the turn toggled; every failure
returns `none` with the state unchanged. -/
def processMove (st : PgnState) (tok : List Char) : Option (List Char) × PgnState :=
  if tok = ooTok ∨ tok = oooTok then
    (some tok, ⟨st.board, st.current_turn.not⟩)
  else
    let cleaned := trimEndMatches '#' (trimEndMatches '+' tok)
    match parseMove st cleaned with
    | some (s, e) =>
      if isPossible st.board (s, e) then
        (some (squareToString s ++ squareToString e),
          ⟨playMove st.board (s, e), st.current_turn.not⟩)
      else (none, st)
    | none => (none, st)

/-- Embeds the token loop of `process_pgn` in `src/main.rs` (lines 208–219):
move-number tokens (ending in `.`) and header tokens (starting with `[`) are
skipped; a processed move is appended; a failed token only prints a warning
and processing continues. -/
def processTokens (st : PgnState) : List (List Char) → List (List Char) × PgnState
  | [] => ([], st)
  | tok :: rest =>
    if tok.getLast? = some '.' ∨ tok.head? = some '[' then processTokens st rest
    else
      match processMove st tok with
      | (some out, st') =>
        let r := processTokens st' rest
        (out :: r.1, r.2)
      | (none, st') => processTokens st' rest

/-- Embeds `process_pgn` of `src/main.rs` (lines 205–222): tokenize the raw
input by whitespace and run the token loop (no cleaning pass in this
variant). -/
def processPgn (st : PgnState) (pgn : List Char) : List (List Char) × PgnState :=
  processTokens st (splitWhitespace pgn)

/-- Embeds `reset` of `src/main.rs` (lines 23–26): back to the starting
position with White to move. -/
def reset (_ : PgnState) : PgnState :=
  ⟨Board.init, Color.white⟩

end MainV

/-- The aborts of `src/pgn_preprocessor.rs`, one constructor per `panic!` /
`todo!` / out-of-bounds indexing site; `ambiguousMove` carries the rendered
candidate origin squares exactly as the panic message does. -/
inductive RustPanic where
  | invalidMove
  | invalidPieceType
  | ambiguousMove (candidates : List (List Char))
  | todoPromotion
  | indexOutOfBounds
deriving DecidableEq

namespace PgnV

/-- Embeds the field-extraction prefix of `parse_piece_move` in
`src/pgn_preprocessor.rs` (lines 124–152): a lowercase non-`x` character at
position 1 is a file hint only under `idx + 2 < chars.len()`; likewise a digit
for the rank hint; the following capture check `chars[idx] == 'x'` is
unguarded and panics (out of bounds) on one-character tokens; the target is
the next two characters if at least two remain (`idx + 2 > chars.len()`
rejects). -/
def classifyPiece (chars : List Char) :
    Except RustPanic (Option Char × Option Char × Option (List Char)) :=
  let fhint : Option Char × Nat :=
    if 1 + 2 < chars.length ∧ (charAt chars 1).isLower ∧ charAt chars 1 ≠ 'x' then
      (some (charAt chars 1), 2)
    else (none, 1)
  let fileD := fhint.1
  let i1 := fhint.2
  let rhint : Option Char × Nat :=
    if i1 + 2 < chars.length ∧ (charAt chars i1).isDigit then (some (charAt chars i1), i1 + 1)
    else (none, i1)
  let rankD := rhint.1
  let i2 := rhint.2
  match chars[i2]? with
  | none => .error .indexOutOfBounds
  | some cc =>
    let i3 := if cc = 'x' then i2 + 1 else i2
    if i3 + 2 > chars.length then .ok (fileD, rankD, none)
    else .ok (fileD, rankD, some ((chars.drop i3).take 2))

/-- Embeds `parse_piece_move` of `src/pgn_preprocessor.rs` (lines 123–197):
classify, then keep the surviving candidate origins; exactly one survivor
yields the move, any other count (zero included) panics with the
"Ambiguous move" message carrying the rendered surviving candidates. -/
def parsePieceMove (st : PgnState) (chars : List Char) (pt : PieceType) :
    Except RustPanic (Option (Nat × Nat)) :=
  match classifyPiece chars with
  | .error e => .error e
  | .ok (_, _, none) => .ok none
  | .ok (fileD, rankD, some tgt) =>
    let target := stringToSquare tgt
    let ps := pieceSurvivors st pt fileD rankD target
    match ps with
    | [s0] => .ok (some (s0, target))
    | _ => .error (.ambiguousMove (ps.map squareToString))

/-- Embeds `parse_pawn_move` of `src/pgn_preprocessor.rs` (lines 67–121): a
leading `<file>x` pair marks a capture and supplies the file hint; the target
is the next two characters; a `=` promotion suffix hits `todo!("Promotion")`;
exactly one surviving pawn yields the move, any other count yields `None`. -/
def parsePawnMove (st : PgnState) (chars : List Char) :
    Except RustPanic (Option (Nat × Nat)) :=
  let file : Option Char :=
    match chars with
    | c0 :: c1 :: _ => if c1 = 'x' then some c0 else none
    | _ => none
  let idx := if file.isSome then 2 else 0
  if chars.length - idx < 2 then .ok none
  else
    let target := stringToSquare ((chars.drop idx).take 2)
    if chars[idx + 2]? = some '=' then .error .todoPromotion
    else
      match pawnSurvivors st file target with
      | [s0] => .ok (some (s0, target))
      | _ => .ok none

/-- Embeds `parse_move` of `src/pgn_preprocessor.rs` (lines 53–65): empty
tokens yield `None` (the `?` on `chars().next()`); an unrecognized leading
character panics with "Invalid piece type". -/
def parseMove (st : PgnState) (chars : List Char) :
    Except RustPanic (Option (Nat × Nat)) :=
  match chars with
  | [] => .ok none
  | c :: _ =>
    if c.isLower then parsePawnMove st chars
    else
      match getPieceType c with
      | some pt => parsePieceMove st chars pt
      | none => .error .invalidPieceType

/-- Embeds `process_move` of `src/pgn_preprocessor.rs` (lines 25–51): castle
tokens are handed to `board.castle`, the turn is toggled and the token is
returned verbatim; otherwise trailing `+` then trailing `#` are trimmed, the
move parsed and re-checked against the oracle, the board updated and the turn
toggled; a parse `None` or a failed re-check falls through to
`panic!("Invalid move")`. -/
def processMove (st : PgnState) (tok : List Char) :
    Except RustPanic (Option (List Char) × PgnState) :=
  if tok = ooTok ∨ tok = oooTok then
    .ok (some tok, ⟨Board.castle st.board tok st.current_turn, st.current_turn.not⟩)
  else
    let cleaned := trimEndMatches '#' (trimEndMatches '+' tok)
    match parseMove st cleaned with
    | .error e => .error e
    | .ok none => .error .invalidMove
    | .ok (some (s, e)) =>
      if isPossible st.board (s, e) then
        .ok (some (squareToString s ++ squareToString e),
          ⟨playMove st.board (s, e), st.current_turn.not⟩)
      else .error .invalidMove

/-- Embeds the token loop of `process_pgn` in `src/pgn_preprocessor.rs`
(lines 227–238): move-number and header tokens are skipped; a processed move
is appended; a panic inside `process_move` aborts the whole run (the
warning branch for a `None` return is unreachable in this variant but is
embedded as in the source). -/
def processTokens (st : PgnState) :
    List (List Char) → Except RustPanic (List (List Char) × PgnState)
  | [] => .ok ([], st)
  | tok :: rest =>
    if tok.getLast? = some '.' ∨ tok.head? = some '[' then processTokens st rest
    else
      match processMove st tok with
      | .error e => .error e
      | .ok (some out, st') =>
        (processTokens st' rest).map fun r => (out :: r.1, r.2)
      | .ok (none, st') => processTokens st' rest

/-- Embeds the cleaning pass of `process_pgn` in `src/pgn_preprocessor.rs`
(lines 214–220): newlines become spaces, every `+` and `#` is removed, then
the result markers `1/2-1/2`, `1-0`, `0-1` are removed, in source order. -/
def cleanReplaced (pgn : List Char) : List Char :=
  let s1 := replaceAll '\n' [] [' '] pgn
  let s2 := replaceAll '+' [] [] s1
  let s3 := replaceAll '#' [] [] s2
  let s4 := replaceAll '1' ['/', '2', '-', '1', '/', '2'] [] s3
  let s5 := replaceAll '1' ['-', '0'] [] s4
  replaceAll '0' ['-', '1'] [] s5

/-- Embeds the rest of the cleaning pass (lines 221–223): split on `1.`,
drop everything before the first occurrence, and concatenate the remaining
segments. -/
def cleanPgn (pgn : List Char) : List Char :=
  ((splitOnSub '1' ['.'] (cleanReplaced pgn)).drop 1).flatten

/-- Embeds `process_pgn` of `src/pgn_preprocessor.rs` (lines 213–241): clean,
tokenize by whitespace, and run the token loop. -/
def processPgn (st : PgnState) (pgn : List Char) :
    Except RustPanic (List (List Char) × PgnState) :=
  processTokens st (splitWhitespace (cleanPgn pgn))

/-- Embeds `reset` of `src/pgn_preprocessor.rs` (lines 20–23): back to the
starting position with White to move. -/
def reset (_ : PgnState) : PgnState :=
  ⟨Board.init, Color.white⟩

end PgnV

/-- The outputs of a `PgnV` run, with the final state (which contains the
non-decidable board function) projected away. -/
def pgnOutputs (r : Except RustPanic (List (List Char) × PgnState)) :
    Except RustPanic (List (List Char)) :=
  r.map Prod.fst

/-- The output of a single `PgnV` token, state projected away. -/
def pgnMoveOutput (r : Except RustPanic (Option (List Char) × PgnState)) :
    Except RustPanic (Option (List Char)) :=
  r.map Prod.fst

/-- The scenario input of the specification: `1. e4 e5 2. Nf3 Nc6`. -/
def c2Input : List Char :=
  ['1', '.', ' ', 'e', '4', ' ', 'e', '5', ' ', '2', '.', ' ', 'N', 'f', '3', ' ', 'N', 'c', '6']

/-- An input whose second token fails to resolve: `1. xx e4`. -/
def c1Input : List Char := ['1', '.', ' ', 'x', 'x', ' ', 'e', '4']

/-- An input with no occurrence of the substring `1.` but containing the
result marker `1-0`: `11-0. e4`. -/
def c10Input : List Char := ['1', '1', '-', '0', '.', ' ', 'e', '4']

/-- A board holding a single white pawn on e7 (square 52). -/
def pawnE7Board : Board := fun s =>
  if s = 52 then some (Color.white, PieceType.pawn) else none

/-- The one-move game `1. e4`. -/
def gameE4 : List Char := ['1', '.', ' ', 'e', '4']

/-- The interpreter state after playing e2–e4 from the start. -/
def stAfterE4 : PgnState := ⟨playMove Board.init (12, 28), Color.black⟩

section SanityChecks

example : Board.init 4 = some (Color.white, PieceType.king) := by decide
example : Board.init 12 = some (Color.white, PieceType.pawn) := by decide
example : Board.init 62 = some (Color.black, PieceType.knight) := by decide
example : Board.init 30 = none := by decide
example : isPossible Board.init (12, 28) = true := by decide
example : isPossible Board.init (11, 28) = false := by decide
example : isPossible Board.init (6, 21) = true := by decide
example : isPossible Board.init (1, 21) = false := by decide
example : squareToString 6 = ['g', '1'] := by decide
example : stringToSquare ['f', '3'] = 21 := by decide
example : trimEndMatches '+' ['N', 'f', '3', '+', '+'] = ['N', 'f', '3'] := by decide
example : trimEndMatches '+' ['e', '4', '+', '#'] = ['e', '4', '+', '#'] := by decide
example : splitWhitespace [' ', 'e', '4', ' ', ' ', 'e', '5'] = [['e', '4'], ['e', '5']] := by
  decide
example : replaceAll '1' ['-', '0'] [] ['1', '1', '-', '0', '.'] = ['1', '.'] := by decide
example : splitOnSub '1' ['.'] ['1', '.', ' ', 'e', '4'] = [[], [' ', 'e', '4']] := by decide
example : splitOnSub '1' ['.'] ['a', 'b'] = [['a', 'b']] := by decide
example : containsSub '1' ['.'] ['1', '1', '-', '0', '.'] = false := by decide
example : containsSub '1' ['.'] ['a', '1', '.', 'b'] = true := by decide
example : pieceSurvivors initState PieceType.knight none none 21 = [6] := by decide
example : pawnSurvivors initState none 28 = [12] := by decide

end SanityChecks

/-- Dropping a run of characters satisfying the predicate from the front. -/
lemma dropWhile_replicate_append (p : Char → Bool) (c : Char) (hp : p c = true)
    (n : Nat) (l : List Char) :
    (List.replicate n c ++ l).dropWhile p = l.dropWhile p := by
  induction n with
  | zero => simp
  | succ k ih => simp [List.replicate_succ, List.dropWhile_cons, hp, ih]

/-- Trimming absorbs a trailing run of the trimmed character. -/
lemma trimEnd_append_replicate (c : Char) (xs : List Char) (n : Nat) :
    trimEndMatches c (xs ++ List.replicate n c) = trimEndMatches c xs := by
  unfold trimEndMatches
  rw [List.reverse_append, List.reverse_replicate,
    dropWhile_replicate_append _ c (by simp) n xs.reverse]

/-- Trimming a character that is not the last one is the identity. -/
lemma trimEnd_of_getLast_ne (c : Char) (xs : List Char) (h : xs.getLast? ≠ some c) :
    trimEndMatches c xs = xs := by
  unfold trimEndMatches
  rcases hr : xs.reverse with _ | ⟨a, tl⟩
  · have hnil : xs = [] := by simpa using congrArg List.reverse hr
    simp [hnil]
  · have hga : xs.getLast? = some a := by rw [← List.head?_reverse, hr]; rfl
    have ha : (a == c) = false := by
      refine beq_eq_false_iff_ne.mpr ?_
      intro he
      exact h (he ▸ hga)
    simp only [List.dropWhile_cons, ha]
    have := congrArg List.reverse hr
    simpa using this.symm

/-- A nonempty trailing run fixes the last character. -/
lemma getLast_append_rep (xs : List Char) (c : Char) (k : Nat) (h : 0 < k) :
    (xs ++ List.replicate k c).getLast? = some c := by
  cases k with
  | zero => exact absurd h (lt_irrefl 0)
  | succ j =>
    rw [← List.head?_reverse, List.reverse_append, List.reverse_replicate]
    simp [List.replicate_succ]

/-- A token whose last character is not `O` is neither castle token. -/
lemma ne_castle_of_getLast (xs : List Char) (c : Char) (h : xs.getLast? = some c)
    (hO : c ≠ 'O') : ¬(xs = ooTok ∨ xs = oooTok) := by
  rintro (rfl | rfl)
  · rw [show ooTok.getLast? = some 'O' from rfl] at h
    exact hO (Option.some.inj h).symm
  · rw [show oooTok.getLast? = some 'O' from rfl] at h
    exact hO (Option.some.inj h).symm

/-- When the pattern does not occur, `splitOnSubAux` yields a single segment. -/
lemma splitOnSubAux_not_contains (p : Char) (ps : List Char) :
    ∀ (fuel : Nat) (s cur : List Char), s.length ≤ fuel →
      containsSub p ps s = false →
      splitOnSubAux p ps fuel cur s = [cur.reverse ++ s] := by
  intro fuel
  induction fuel with
  | zero =>
    intro s cur hle _
    have hs : s = [] := List.length_eq_zero.mp (Nat.le_zero.mp hle)
    subst hs
    simp [splitOnSubAux]
  | succ k ih =>
    intro s cur hle hc
    cases s with
    | nil => simp [splitOnSubAux]
    | cons c cs =>
      unfold containsSub at hc
      rw [Bool.or_eq_false_iff] at hc
      obtain ⟨hd, hrest⟩ := hc
      cases hdp : dropPat (p :: ps) (c :: cs) with
      | some r => rw [hdp] at hd; simp at hd
      | none =>
        unfold splitOnSubAux
        rw [hdp]
        have hlen : cs.length ≤ k := by
          simp only [List.length_cons] at hle
          omega
        rw [ih cs (c :: cur) hlen hrest]
        simp

/-- Non-castle tokens with equal cleaned forms are processed identically by
both variants (the parse path only sees the cleaned token and the state). -/
lemma processMove_congr_clean (st : PgnState) (tok tok' : List Char)
    (hcl : trimEndMatches '#' (trimEndMatches '+' tok)
      = trimEndMatches '#' (trimEndMatches '+' tok'))
    (hc1 : ¬(tok = ooTok ∨ tok = oooTok)) (hc2 : ¬(tok' = ooTok ∨ tok' = oooTok)) :
    PgnV.processMove st tok = PgnV.processMove st tok'
    ∧ MainV.processMove st tok = MainV.processMove st tok' := by
  constructor
  · unfold PgnV.processMove
    rw [if_neg hc1, if_neg hc2, hcl]
  · unfold MainV.processMove
    rw [if_neg hc1, if_neg hc2, hcl]

/-- The `main.rs` `process_move` either succeeds or returns `none` with the
state untouched. -/
lemma mainProcessMove_cases (st : PgnState) (tok : List Char) :
    (∃ out st', MainV.processMove st tok = (some out, st'))
    ∨ MainV.processMove st tok = (none, st) := by
  unfold MainV.processMove
  split
  · exact Or.inl ⟨_, _, rfl⟩
  · dsimp only
    split
    · split
      · exact Or.inl ⟨_, _, rfl⟩
      · exact Or.inr rfl
    · exact Or.inr rfl

/-- Claim C1 (amended): in the `main.rs` variant a token whose resolution
fails is reported per token, leaves the board and side-to-move unchanged, and
processing continues with the remaining tokens; in the `pgn_preprocessor.rs`
variant the first failing token panics, aborting the remaining tokens. -/
theorem claim_c1 (st : PgnState) (tok : List Char) (rest : List (List Char))
    (h1 : tok.getLast? ≠ some '.') (h2 : tok.head? ≠ some '[') :
    ((MainV.processMove st tok).1 = none →
      MainV.processMove st tok = (none, st)
      ∧ MainV.processTokens st (tok :: rest) = MainV.processTokens st rest)
    ∧ (∀ e, PgnV.processMove st tok = .error e →
        PgnV.processTokens st (tok :: rest) = .error e) := by
  have hskip : ¬(tok.getLast? = some '.' ∨ tok.head? = some '[') := by
    rintro (h | h)
    · exact h1 h
    · exact h2 h
  constructor
  · intro hfail
    rcases mainProcessMove_cases st tok with ⟨out, st', hsome⟩ | hnone
    · rw [hsome] at hfail
      simp at hfail
    · refine ⟨hnone, ?_⟩
      show MainV.processTokens st (tok :: rest) = MainV.processTokens st rest
      simp only [MainV.processTokens]
      rw [if_neg hskip, hnone]
  · intro e he
    unfold PgnV.processTokens
    rw [if_neg hskip, he]

/-- Witness for C1 at the failing token `xx` followed by `e4` from the initial
state: the main variant skips the bad token, the pgn_preprocessor variant
aborts with the invalid-move panic. -/
theorem claim_c1_witness :
    MainV.processTokens initState [['x', 'x'], ['e', '4']]
      = MainV.processTokens initState [['e', '4']]
    ∧ PgnV.processTokens initState [['x', 'x'], ['e', '4']]
      = .error .invalidMove := by
  have h := claim_c1 initState ['x', 'x'] [['e', '4']] (by decide) (by decide)
  exact ⟨(h.1 (by rfl)).2, h.2 .invalidMove (by rfl)⟩

/-- Counterexample to C1 as stated: on `1. xx e4` the `pgn_preprocessor.rs`
interpreter aborts at the failed token `xx` (the whole run is the panic and
`e4` is never processed), while the claimed continue-on-failure behaviour is
exhibited only by the `main.rs` variant, which still emits `e2e4`. -/
theorem claim_c1_counterexample :
    PgnV.processPgn initState c1Input = .error .invalidMove
    ∧ (MainV.processPgn initState c1Input).1 = [['e', '2', 'e', '4']] := by
  exact ⟨by rfl, by decide⟩

/-- Claim C2: processing the input `1. e4 e5 2. Nf3 Nc6` from the initial
position with the `process_pgn` pipeline of `src/pgn_preprocessor.rs` yields
exactly the ordered output sequence `e2e4, e7e5, g1f3, b8c6`. -/
theorem claim_c2 :
    pgnOutputs (PgnV.processPgn initState c2Input)
      = .ok [['e', '2', 'e', '4'], ['e', '7', 'e', '5'],
          ['g', '1', 'f', '3'], ['b', '8', 'c', '6']] := by
  rfl

/-- Claim C3 (amended): the `pgn_preprocessor.rs` resolver returns an origin
exactly when the filtered candidate list is that single origin — it never
silently picks one of several — but zero survivors and several survivors are
not distinguished: both take the same "Ambiguous move" panic carrying the
rendered surviving candidates (empty for zero). -/
theorem claim_c3 (st : PgnState) (tok : List Char) (pt : PieceType)
    (f r : Option Char) (tg : List Char) (o : Nat)
    (hc : PgnV.classifyPiece tok = .ok (f, r, some tg)) :
    (PgnV.parsePieceMove st tok pt = .ok (some (o, stringToSquare tg))
      ↔ pieceSurvivors st pt f r (stringToSquare tg) = [o])
    ∧ ((pieceSurvivors st pt f r (stringToSquare tg)).length ≠ 1 →
        PgnV.parsePieceMove st tok pt
          = .error (.ambiguousMove
              ((pieceSurvivors st pt f r (stringToSquare tg)).map squareToString))) := by
  have hmain : PgnV.parsePieceMove st tok pt
      = (match pieceSurvivors st pt f r (stringToSquare tg) with
          | [s0] => .ok (some (s0, stringToSquare tg))
          | _ => .error (.ambiguousMove
              ((pieceSurvivors st pt f r (stringToSquare tg)).map squareToString))) := by
    unfold PgnV.parsePieceMove
    rw [hc]
  rcases hS : pieceSurvivors st pt f r (stringToSquare tg) with _ | ⟨a, _ | ⟨b, s2⟩⟩
  · rw [hS] at hmain
    constructor
    · rw [hmain]
      simp
    · intro _
      rw [hmain]
  · rw [hS] at hmain
    constructor
    · rw [hmain]
      simp
    · intro hlen
      exact absurd rfl hlen
  · rw [hS] at hmain
    constructor
    · rw [hmain]
      simp
    · intro _
      rw [hmain]

/-- Witness for C3 at `Nf3` on the initial position: the classifier yields no
hints and target `f3`, and the resolver's success is equivalent to the
survivor list being exactly the knight on g1 (square 6). -/
theorem claim_c3_witness :
    PgnV.classifyPiece ['N', 'f', '3'] = .ok (none, none, some ['f', '3'])
    ∧ (PgnV.parsePieceMove initState ['N', 'f', '3'] PieceType.knight
        = .ok (some (6, stringToSquare ['f', '3']))
      ↔ pieceSurvivors initState PieceType.knight none none (stringToSquare ['f', '3'])
        = [6]) := by
  exact ⟨rfl,
    (claim_c3 initState ['N', 'f', '3'] PieceType.knight none none ['f', '3'] 6 rfl).1⟩

/-- Counterexample to C3 as stated: on the initial position the token `Ne4`
has zero surviving candidates, yet the resolver does not produce a distinct
`UnresolvedMove` failure — it takes the same "Ambiguous move" panic (with an
empty candidate list) used for multiple survivors. -/
theorem claim_c3_counterexample :
    pieceSurvivors initState PieceType.knight none none (stringToSquare ['e', '4']) = []
    ∧ PgnV.parsePieceMove initState ['N', 'e', '4'] PieceType.knight
      = .error (.ambiguousMove []) := by
  exact ⟨by decide, by rfl⟩

/-- Claim C4 (the rule as specified, versus `src/main.rs`): the
`pgn_preprocessor.rs` classifier takes no disambiguation hint from `Nf3` and
parses target `f3` (the full pipeline resolves it to `g1f3`), while the
`main.rs` classifier consumes `f` as a file hint for every state and its
`parse_piece_move` therefore returns `None` on the plain token `Nf3`. -/
theorem claim_c4 :
    (∀ st : PgnState, MainV.parsePieceMove st ['N', 'f', '3'] PieceType.knight = none)
    ∧ MainV.classifyPiece ['N', 'f', '3'] = (some 'f', none, none)
    ∧ PgnV.classifyPiece ['N', 'f', '3'] = .ok (none, none, some ['f', '3'])
    ∧ pgnMoveOutput (PgnV.processMove initState ['N', 'f', '3'])
      = .ok (some ['g', '1', 'f', '3']) := by
  exact ⟨fun st => rfl, rfl, rfl, rfl⟩

/-- Claim C5 (amended): both variants recognize `O-O` and `O-O-O` verbatim
without square parsing, toggle side-to-move and emit the token unchanged; but
only the `pgn_preprocessor.rs` variant hands the token to the oracle's
castle-apply operation — the `main.rs` variant makes no oracle call and leaves
the board unchanged. -/
theorem claim_c5 (st : PgnState) (tok : List Char) (h : tok = ooTok ∨ tok = oooTok) :
    PgnV.processMove st tok
      = .ok (some tok, ⟨Board.castle st.board tok st.current_turn, st.current_turn.not⟩)
    ∧ MainV.processMove st tok = (some tok, ⟨st.board, st.current_turn.not⟩) := by
  constructor
  · unfold PgnV.processMove
    rw [if_pos h]
  · unfold MainV.processMove
    rw [if_pos h]

/-- Witness for C5 at `O-O` from the initial state. -/
theorem claim_c5_witness :
    (ooTok = ooTok ∨ ooTok = oooTok)
    ∧ PgnV.processMove initState ooTok
      = .ok (some ooTok,
          ⟨Board.castle initState.board ooTok initState.current_turn,
            initState.current_turn.not⟩)
    ∧ MainV.processMove initState ooTok
      = (some ooTok, ⟨initState.board, initState.current_turn.not⟩) := by
  refine ⟨Or.inl rfl, ?_, ?_⟩
  · exact (claim_c5 initState ooTok (Or.inl rfl)).1
  · exact (claim_c5 initState ooTok (Or.inl rfl)).2

/-- Counterexample to C5 as stated: processing `O-O` with the `main.rs`
variant leaves the board exactly the initial board (the knight still on g1),
whereas the oracle's castle-apply operation would put the king there — the
board is not updated by the castle in that variant. -/
theorem claim_c5_counterexample :
    (MainV.processMove initState ooTok).2.board = Board.init
    ∧ Board.init 6 = some (Color.white, PieceType.knight)
    ∧ Board.castle Board.init ooTok Color.white 6 = some (Color.white, PieceType.king) := by
  exact ⟨rfl, by decide, by decide⟩

/-- Claim C6 (amended): a 2-character token whose leading character is neither
lowercase nor a piece letter (and is not itself a check suffix character) has
no `MalformedToken` value to yield — no such type exists in the sources;
instead the `pgn_preprocessor.rs` variant panics with "Invalid piece type"
(aborting the game) and the `main.rs` variant returns no move with the state
unchanged, reporting only a warning. -/
theorem claim_c6 (st : PgnState) (c1 c2 : Char)
    (h1 : c1.isLower = false) (h2 : getPieceType c1 = none)
    (h3 : c1 ≠ '+') (h4 : c1 ≠ '#') :
    PgnV.processMove st [c1, c2] = .error .invalidPieceType
    ∧ MainV.processMove st [c1, c2] = (none, st) := by
  have hne : ¬([c1, c2] = ooTok ∨ [c1, c2] = oooTok) := by
    rintro (h | h) <;> simp [ooTok, oooTok] at h
  have hparseP : ∀ ts, PgnV.parseMove st (c1 :: ts) = .error .invalidPieceType := by
    intro ts
    simp [PgnV.parseMove, h1, h2]
  have hparseM : ∀ ts, MainV.parseMove st (c1 :: ts) = none := by
    intro ts
    simp [MainV.parseMove, h1, h2]
  have hcl : trimEndMatches '#' (trimEndMatches '+' [c1, c2]) = [c1]
      ∨ trimEndMatches '#' (trimEndMatches '+' [c1, c2]) = [c1, c2] := by
    by_cases hp : c2 = '+'
    · subst hp
      left
      have e1 : trimEndMatches '+' [c1, '+'] = [c1] := by
        simp [trimEndMatches, h3]
      rw [e1]
      exact trimEnd_of_getLast_ne '#' [c1] (by simp [h4])
    · by_cases hh : c2 = '#'
      · subst hh
        left
        have e1 : trimEndMatches '+' [c1, '#'] = [c1, '#'] :=
          trimEnd_of_getLast_ne '+' [c1, '#'] (by simp)
        rw [e1]
        simp [trimEndMatches, h4]
      · right
        have e1 : trimEndMatches '+' [c1, c2] = [c1, c2] :=
          trimEnd_of_getLast_ne '+' [c1, c2] (by simp [hp])
        have e2 : trimEndMatches '#' [c1, c2] = [c1, c2] :=
          trimEnd_of_getLast_ne '#' [c1, c2] (by simp [hh])
        rw [e1, e2]
  obtain ⟨t, ht⟩ : ∃ t, trimEndMatches '#' (trimEndMatches '+' [c1, c2]) = c1 :: t := by
    rcases hcl with h | h
    · exact ⟨[], h⟩
    · exact ⟨[c2], h⟩
  constructor
  · unfold PgnV.processMove
    rw [if_neg hne, ht]
    simp [hparseP]
  · unfold MainV.processMove
    rw [if_neg hne, ht]
    simp [hparseM]

/-- Witness for C6 at the token `Z9` from the initial state. -/
theorem claim_c6_witness :
    ('Z'.isLower = false ∧ getPieceType 'Z' = none)
    ∧ PgnV.processMove initState ['Z', '9'] = .error .invalidPieceType
    ∧ MainV.processMove initState ['Z', '9'] = (none, initState) := by
  refine ⟨⟨by decide, rfl⟩, ?_, ?_⟩
  · exact (claim_c6 initState 'Z' '9' (by decide) rfl (by decide) (by decide)).1
  · exact (claim_c6 initState 'Z' '9' (by decide) rfl (by decide) (by decide)).2

/-- Counterexample to C6 as stated: the move list consisting of the single
2-character token `Z9` makes the `pgn_preprocessor.rs` interpreter panic — it
aborts instead of yielding a reported `MalformedToken` failure. -/
theorem claim_c6_counterexample :
    PgnV.processTokens initState [['Z', '9']] = .error .invalidPieceType := by
  rfl

/-- Claim C7 (amended): promotion is never resolved: on a pawn token carrying
a `=` suffix the `pgn_preprocessor.rs` variant aborts at the explicit
`todo!("Promotion")` panic, while the `main.rs` variant (per its own comment)
silently skips the suffix and parses the token exactly like the bare
two-character pawn move, emitting a coordinate pair with no promotion piece. -/
theorem claim_c7 (st : PgnState) (c r : Char) (rest : List Char) (h : r ≠ 'x') :
    MainV.parsePawnMove st (c :: r :: '=' :: rest) = MainV.parsePawnMove st [c, r]
    ∧ PgnV.parsePawnMove st (c :: r :: '=' :: rest) = .error .todoPromotion := by
  constructor
  · unfold MainV.parsePawnMove
    simp [h]
  · unfold PgnV.parsePawnMove
    simp [h]

/-- Witness for C7 at `e8=Q` from the initial state. -/
theorem claim_c7_witness :
    ('8' ≠ 'x')
    ∧ MainV.parsePawnMove initState ['e', '8', '=', 'Q']
      = MainV.parsePawnMove initState ['e', '8']
    ∧ PgnV.parsePawnMove initState ['e', '8', '=', 'Q'] = .error .todoPromotion := by
  refine ⟨by decide, ?_, ?_⟩
  · exact (claim_c7 initState 'e' '8' ['Q'] (by decide)).1
  · exact (claim_c7 initState 'e' '8' ['Q'] (by decide)).2

/-- Counterexample to C7 as stated: with a white pawn on e7, the `main.rs`
variant processes the promotion token `e8=Q` to the plain output `e7e8` —
neither a dedicated promotion-unsupported error nor resolved promotion
support (the promotion piece is dropped). -/
theorem claim_c7_counterexample :
    (MainV.processMove ⟨pawnE7Board, Color.white⟩ ['e', '8', '=', 'Q']).1
      = some ['e', '7', 'e', '8'] := by
  decide

/-- Claim C8: `reset()` returns both variants to the initial state (starting
position, White to move), so processing the same token stream after a reset
yields exactly the same output sequence as the first run, processing being a
deterministic function of state and input. -/
theorem claim_c8 (s : List Char) (st1 st2 : PgnState) (o1 : List (List Char)) :
    (MainV.processPgn (MainV.reset st1) s).1 = (MainV.processPgn initState s).1
    ∧ (PgnV.processPgn initState s = .ok (o1, st2) →
        PgnV.processPgn (PgnV.reset st2) s = .ok (o1, st2)) := by
  constructor
  · rfl
  · intro h
    exact h

/-- Witness for C8 on the one-move game `1. e4`. -/
theorem claim_c8_witness :
    PgnV.processPgn initState gameE4 = .ok ([['e', '2', 'e', '4']], stAfterE4)
    ∧ PgnV.processPgn (PgnV.reset stAfterE4) gameE4
      = .ok ([['e', '2', 'e', '4']], stAfterE4) := by
  have h : PgnV.processPgn initState gameE4 = .ok ([['e', '2', 'e', '4']], stAfterE4) := by
    rfl
  exact ⟨h, (claim_c8 gameE4 initState stAfterE4 [['e', '2', 'e', '4']]).2 h⟩

/-- Claim C9 (amended): for a non-castle token that does not itself end in
`+`, appending a suffix of `#`s followed by `+`s is invisible to both
variants: the cleaning pass strips all of it and the token is processed
exactly like the bare token.  (A `+` standing before a trailing `#` is *not*
stripped — see the counterexample — which is what forces this suffix shape.) -/
theorem claim_c9 (st : PgnState) (t : List Char) (m n : Nat)
    (h1 : t.getLast? ≠ some '+') (h3 : t ≠ ooTok) (h4 : t ≠ oooTok) :
    PgnV.processMove st (t ++ List.replicate m '#' ++ List.replicate n '+')
      = PgnV.processMove st t
    ∧ MainV.processMove st (t ++ List.replicate m '#' ++ List.replicate n '+')
      = MainV.processMove st t := by
  rcases Nat.eq_zero_or_pos (m + n) with hmn | hmn
  · obtain ⟨hm, hn⟩ : m = 0 ∧ n = 0 := by omega
    subst hm
    subst hn
    simp
  · have hcastle_t : ¬(t = ooTok ∨ t = oooTok) := by
      rintro (h | h)
      · exact h3 h
      · exact h4 h
    have hlast : (t ++ List.replicate m '#' ++ List.replicate n '+').getLast? = some '+'
        ∨ (t ++ List.replicate m '#' ++ List.replicate n '+').getLast? = some '#' := by
      rcases Nat.eq_zero_or_pos n with hn | hn
      · subst hn
        right
        have hm : 0 < m := by omega
        simp only [List.replicate_zero, List.append_nil]
        exact getLast_append_rep t '#' m hm
      · left
        exact getLast_append_rep _ '+' n hn
    have hcastle_tk : ¬(t ++ List.replicate m '#' ++ List.replicate n '+' = ooTok
        ∨ t ++ List.replicate m '#' ++ List.replicate n '+' = oooTok) := by
      rcases hlast with h | h
      · exact ne_castle_of_getLast _ '+' h (by decide)
      · exact ne_castle_of_getLast _ '#' h (by decide)
    have hA : trimEndMatches '+' (t ++ List.replicate m '#') = t ++ List.replicate m '#' := by
      rcases Nat.eq_zero_or_pos m with hm | hm
      · subst hm
        simpa using trimEnd_of_getLast_ne '+' t h1
      · refine trimEnd_of_getLast_ne '+' _ ?_
        rw [getLast_append_rep t '#' m hm]
        decide
    have hcl : trimEndMatches '#'
          (trimEndMatches '+' (t ++ List.replicate m '#' ++ List.replicate n '+'))
        = trimEndMatches '#' (trimEndMatches '+' t) := by
      rw [trimEnd_append_replicate '+' (t ++ List.replicate m '#') n, hA,
        trimEnd_append_replicate '#' t m, trimEnd_of_getLast_ne '+' t h1]
    exact processMove_congr_clean st _ t hcl hcastle_tk hcastle_t

/-- Witness for C9 at the token `e4#+` (bare token `e4`, suffix `#` then `+`)
from the initial state. -/
theorem claim_c9_witness :
    ((['e', '4'] : List Char).getLast? ≠ some '+')
    ∧ PgnV.processMove initState (['e', '4'] ++ List.replicate 1 '#' ++ List.replicate 1 '+')
      = PgnV.processMove initState ['e', '4']
    ∧ MainV.processMove initState (['e', '4'] ++ List.replicate 1 '#' ++ List.replicate 1 '+')
      = MainV.processMove initState ['e', '4'] := by
  refine ⟨by decide, ?_, ?_⟩
  · exact (claim_c9 initState ['e', '4'] 1 1 (by decide) (by decide) (by decide)).1
  · exact (claim_c9 initState ['e', '4'] 1 1 (by decide) (by decide) (by decide)).2

/-- Counterexample to C9 as stated: from the initial position, `Nf3` resolves
to `g1f3`, but `Nf3+#` (the same token with `+` then `#` appended) is cleaned
only to `Nf3+`, misread as a file hint `f` with target `3+`, and panics with
an empty ambiguous-candidates list — appending check/checkmate suffixes is
not always behaviour-preserving. -/
theorem claim_c9_counterexample :
    pgnMoveOutput (PgnV.processMove initState ['N', 'f', '3', '+', '#'])
      = .error (.ambiguousMove [])
    ∧ pgnMoveOutput (PgnV.processMove initState ['N', 'f', '3'])
      = .ok (some ['g', '1', 'f', '3']) := by
  exact ⟨by rfl, by rfl⟩

/-- Claim C10 (amended): when the *cleaned* text (newlines to spaces, `+`/`#`
and result markers removed) contains no occurrence of `1.`, the
`pgn_preprocessor.rs` `process_pgn` discards everything (split on `1.` keeps
nothing after the first segment), returns the empty output sequence and leaves
the state untouched.  (The condition must be on the cleaned text: the
replacements can manufacture a `1.`, see the counterexample.) -/
theorem claim_c10 (st : PgnState) (input : List Char)
    (h : containsSub '1' ['.'] (PgnV.cleanReplaced input) = false) :
    PgnV.processPgn st input = .ok ([], st) := by
  unfold PgnV.processPgn PgnV.cleanPgn
  unfold splitOnSub
  rw [splitOnSubAux_not_contains '1' ['.'] (PgnV.cleanReplaced input).length
    (PgnV.cleanReplaced input) [] le_rfl h]
  simp [splitWhitespace, splitWsAux, PgnV.processTokens]

/-- Witness for C10 on the input `hi`. -/
theorem claim_c10_witness :
    containsSub '1' ['.'] (PgnV.cleanReplaced ['h', 'i']) = false
    ∧ PgnV.processPgn initState ['h', 'i'] = .ok ([], initState) := by
  exact ⟨by decide, claim_c10 initState ['h', 'i'] (by decide)⟩

/-- Counterexample to C10 as stated: the input `11-0. e4` contains no
occurrence of the substring `1.`, yet removing the result marker `1-0` during
cleaning manufactures one, so `process_pgn` processes `e4` and returns a
non-empty output (mutating the board) instead of the claimed empty sequence. -/
theorem claim_c10_counterexample :
    containsSub '1' ['.'] c10Input = false
    ∧ pgnOutputs (PgnV.processPgn initState c10Input) = .ok [['e', '2', 'e', '4']] := by
  exact ⟨by decide, by rfl⟩
